import Mathlib

/-!
Shallow embedding of the token-ledger engine of the `helix-onchain/filecoin`
repository: the FRCXX NFT handle (`frcxx_nft/src/lib.rs`) and the FRC46
factory token actor (`frc46_factory_token/token_impl/src/lib.rs`).

Machine integers of the source (`u64` token ids and balances, `ActorID`) are
embedded as `Nat`; big-integer token amounts as `Int`; content addresses
(`Cid`) as opaque `Nat` tags; byte strings as `List Nat`.  The state-level
module `frcxx_nft/src/state.rs` and the `frc46_token` library internals are
not part of the provided sources, so the corresponding definitions are
modelled from the specification and are marked as such in doc comments.
-/

abbrev ActorID := Nat

abbrev TokenID := Nat

abbrev Cid := Nat

abbrev RawBytes := List Nat

/-- Addresses: either an id-address (resolving to its own actor id, as on the
FVM) or a keyed address that must be looked up by the messaging capability. -/
inductive Address where
  | id (actorId : ActorID)
  | key (k : Nat)
deriving DecidableEq, Repr

/-- Messaging-level errors (`fvm_actor_utils::messaging::MessagingError`):
syscall-level failure, unresolvable address, or serialization failure. -/
inductive MessagingError where
  | Syscall (errno : Nat)
  | AddressNotResolved (addr : Address)
  | Ipld (msg : String)
deriving DecidableEq, Repr

/-- State-level errors of the NFT ledger (`frcxx_nft::state::StateError`). -/
inductive StateError where
  | TokenNotFound (tokenId : TokenID)
  | NotOwner (actor : ActorID) (tokenId : TokenID)
  | Storage (msg : String)
deriving DecidableEq, Repr

/-- Actor-runtime errors (root missing / actor deleted). -/
inductive ActorError where
  | NoState
deriving DecidableEq, Repr

/-- Errors surfaced by the NFT handle (`frcxx_nft::NFTError`). -/
inductive NFTError where
  | NFTState (e : StateError)
  | Messaging (e : MessagingError)
  | Actor (e : ActorError)
deriving DecidableEq, Repr

/-- Association-list lookup, used to embed the persistent AMT/HAMT maps. -/
def alookup {α β : Type} [DecidableEq α] : List (α × β) → α → Option β
  | [], _ => none
  | (k, v) :: rest, a => if k = a then some v else alookup rest a

/-- Replace the value stored at an existing key (keys not present are left
untouched, so the key set is preserved). -/
def aupdate {α β : Type} [DecidableEq α] (l : List (α × β)) (a : α) (v : β) :
    List (α × β) :=
  l.map fun p => if p.1 = a then (a, v) else p

/-- Insert-or-replace. -/
def aset {α β : Type} [DecidableEq α] (l : List (α × β)) (a : α) (v : β) :
    List (α × β) :=
  if (alookup l a).isSome then aupdate l a v else l ++ [(a, v)]

/-- Delete a key. -/
def aremove {α β : Type} [DecidableEq α] (l : List (α × β)) (a : α) :
    List (α × β) :=
  l.filter fun p => p.1 ≠ a

/-- Per-token record of the NFT ledger: owner, approved operators, metadata. -/
structure TokenData where
  owner : ActorID
  operators : List ActorID
  metadata : String
deriving DecidableEq, Repr

/-- Per-account record of the NFT ledger: balance and account-level
approved operators. -/
structure OwnerData where
  balance : Nat
  operators : List ActorID
deriving DecidableEq, Repr

/-- The NFT ledger state (`frcxx_nft::state::NFTState`): token-id-indexed
records, account-indexed records, total supply and next token id.  The AMT
and HAMT are embedded inline as association lists. -/
structure NFTState where
  tokenData : List (TokenID × TokenData)
  ownerData : List (ActorID × OwnerData)
  totalSupply : Nat
  nextToken : TokenID
deriving DecidableEq, Repr

/-- Messaging capability, embedded as resolution tables.  An id-address
resolves to its own actor id; keyed addresses are looked up, defaulting to
the address-not-resolved error; the tables can also hold syscall or
serialization errors. -/
structure Messenger where
  resolveTbl : List (Nat × Except MessagingError ActorID)
  initTbl : List (Nat × Except MessagingError ActorID)
deriving Repr

/-- `Messaging::resolve_id`: resolve an address to an actor id. -/
def Messenger.resolveId (m : Messenger) (a : Address) :
    Except MessagingError ActorID :=
  match a with
  | .id i => .ok i
  | .key k => (alookup m.resolveTbl k).getD (.error (.AddressNotResolved a))

/-- `Messaging::resolve_or_init`: resolve an address, lazily creating an
account where possible. -/
def Messenger.resolveOrInit (m : Messenger) (a : Address) :
    Except MessagingError ActorID :=
  match a with
  | .id i => .ok i
  | .key k => (alookup m.initTbl k).getD (.error (.AddressNotResolved a))

/-- Modelled from the spec: `NFTState::get_balance` (the state module is not
among the provided sources) — the number of NFTs recorded for an account,
zero when the account has no record. -/
def getOwnerData (m : List (ActorID × OwnerData)) (a : ActorID) : OwnerData :=
  (alookup m a).getD ⟨0, []⟩

def getBalance (st : NFTState) (a : ActorID) : Nat :=
  (getOwnerData st.ownerData a).balance

/-- Modelled from the spec: `NFTState::owns_token` (the state module is not
among the provided sources) — every token id must resolve to a record whose
owner equals the expected actor; a mismatch fails with `NotOwner{actor,
token_id}`; an unknown id fails with `TokenNotFound{token_id}`. -/
def ownsToken (tokenArr : List (TokenID × TokenData)) (actor : ActorID)
    (tokenId : TokenID) : Except StateError TokenData :=
  match alookup tokenArr tokenId with
  | none => .error (.TokenNotFound tokenId)
  | some td => if td.owner = actor then .ok td else .error (.NotOwner actor tokenId)

/-- Modelled from the spec: `NFTState::make_transfer` (the state module is
not among the provided sources) — update the token record to the new owner,
clear its approved-operator set, and move one unit of balance from the
previous owner to the recipient. -/
def makeTransfer (tokenArr : List (TokenID × TokenData))
    (ownerMap : List (ActorID × OwnerData)) (tokenId : TokenID)
    (recipient : ActorID) :
    List (TokenID × TokenData) × List (ActorID × OwnerData) :=
  match alookup tokenArr tokenId with
  | none => (tokenArr, ownerMap)
  | some td =>
    let newArr := aupdate tokenArr tokenId
      { td with owner := recipient, operators := [] }
    let fromData := getOwnerData ownerMap td.owner
    let m1 := aset ownerMap td.owner
      { fromData with balance := fromData.balance - 1 }
    let toData := getOwnerData m1 recipient
    let m2 := aset m1 recipient { toData with balance := toData.balance + 1 }
    (newArr, m2)

/-- The per-id loop of `NFT::transfer` (`frcxx_nft/src/lib.rs`): for each id
check ownership, then update the record to the new owner. -/
def transferLoop (ownerId recipientId : ActorID) (ids : List TokenID)
    (tokenArr : List (TokenID × TokenData))
    (ownerMap : List (ActorID × OwnerData)) :
    Except StateError (List (TokenID × TokenData) × List (ActorID × OwnerData)) :=
  match ids with
  | [] => .ok (tokenArr, ownerMap)
  | t :: rest =>
    match ownsToken tokenArr ownerId t with
    | .error e => .error e
    | .ok _ =>
      let p := makeTransfer tokenArr ownerMap t recipientId
      transferLoop ownerId recipientId rest p.1 p.2

/-- Modelled from the spec: the per-id loop of `NFTState::burn_tokens` (the
state module is not among the provided sources) — check ownership via the
same path as transfer, then delete the record permanently and decrement the
owner's balance. -/
def burnLoop (ownerId : ActorID) (ids : List TokenID)
    (tokenArr : List (TokenID × TokenData))
    (ownerMap : List (ActorID × OwnerData)) :
    Except StateError (List (TokenID × TokenData) × List (ActorID × OwnerData)) :=
  match ids with
  | [] => .ok (tokenArr, ownerMap)
  | t :: rest =>
    match ownsToken tokenArr ownerId t with
    | .error e => .error e
    | .ok _ =>
      let ta2 := aremove tokenArr t
      let od := getOwnerData ownerMap ownerId
      let om2 := aset ownerMap ownerId { od with balance := od.balance - 1 }
      burnLoop ownerId rest ta2 om2

/-- Modelled from the spec: `NFTState::revoke_for_tokens` (the state module
is not among the provided sources) — remove the operator from the
approved-operator set of each listed token, checking control of the token. -/
def revokeLoop (callerId opId : ActorID) (ids : List TokenID)
    (tokenArr : List (TokenID × TokenData)) :
    Except StateError (List (TokenID × TokenData)) :=
  match ids with
  | [] => .ok tokenArr
  | t :: rest =>
    match alookup tokenArr t with
    | none => .error (.TokenNotFound t)
    | some td =>
      if td.owner = callerId then
        revokeLoop callerId opId rest
          (aupdate tokenArr t
            { td with operators := td.operators.filter (· ≠ opId) })
      else .error (.NotOwner callerId t)

/-- Modelled from the spec: `NFTState::revoke_for_all` (the state module is
not among the provided sources) — remove the operator from the account-level
approved-operator list. -/
def stateRevokeForAll (st : NFTState) (ownerId opId : ActorID) : NFTState :=
  let od := getOwnerData st.ownerData ownerId
  let od2 : OwnerData := { od with operators := od.operators.filter (· ≠ opId) }
  { st with ownerData := aset st.ownerData ownerId od2 }

/-- Intermediate produced by `NFT::transfer`, consumed by
`NFT::transfer_return` (`frcxx_nft/src/lib.rs`). -/
structure TransferIntermediate where
  tokenIds : List TokenID
  toId : ActorID
  fromId : ActorID
  recipientData : RawBytes
deriving DecidableEq, Repr

/-- Return value of `NFT::transfer_return`: the final balances and ownership
data reported after the receiver hook completed. -/
structure TransferReturn where
  fromBalance : Nat
  toBalance : Nat
  tokenIds : List TokenID
  recipientData : RawBytes
deriving DecidableEq, Repr

/-- Intermediate produced by `NFT::transfer_from`. -/
structure TransferFromIntermediate where
  operatorId : ActorID
  fromId : ActorID
  toId : ActorID
  tokenIds : List TokenID
  recipientData : RawBytes
deriving DecidableEq, Repr

/-- Return value of `NFT::transfer_from_return`. -/
structure TransferFromReturn where
  fromBalance : Nat
  toBalance : Nat
  tokenIds : List TokenID
  recipientData : RawBytes
deriving DecidableEq, Repr

/-- Intermediate produced by `NFT::mint`. -/
structure MintIntermediate where
  recipient : ActorID
  tokenIds : List TokenID
  recipientData : RawBytes
deriving DecidableEq, Repr

/-- Return value of `NFT::mint_return`. -/
structure MintReturn where
  balance : Nat
  supply : Nat
  recipientData : RawBytes
deriving DecidableEq, Repr

/-- Modelled from the spec: `NFTState::transfer_return` (the state module is
not among the provided sources) — compute the final balances for the return
value from the given (current) state. -/
def stateTransferReturn (st : NFTState) (i : TransferIntermediate) :
    TransferReturn :=
  { fromBalance := getBalance st i.fromId, toBalance := getBalance st i.toId,
    tokenIds := i.tokenIds, recipientData := i.recipientData }

/-- Modelled from the spec: `NFTState::transfer_from_return` (the state
module is not among the provided sources). -/
def stateTransferFromReturn (st : NFTState) (i : TransferFromIntermediate) :
    TransferFromReturn :=
  { fromBalance := getBalance st i.fromId, toBalance := getBalance st i.toId,
    tokenIds := i.tokenIds, recipientData := i.recipientData }

/-- Modelled from the spec: `NFTState::mint_return` (the state module is not
among the provided sources) — the recipient's balance and the total supply,
read from the given (current) state. -/
def stateMintReturn (st : NFTState) (i : MintIntermediate) : MintReturn :=
  { balance := getBalance st i.recipient, supply := st.totalSupply,
    recipientData := i.recipientData }

/-- The NFT handle (`frcxx_nft::NFT`): a blockstore (content address to
state), the messaging capability, the actor-root capability and the
in-memory state. -/
structure NFT where
  bs : List (Cid × NFTState)
  msg : Messenger
  actorRoot : Except ActorError Cid
  state : NFTState

/-- `NFT::load_replace`: load a fresh copy of the state from the blockstore,
replacing the in-memory state; the old state is returned. -/
def NFT.loadReplace (n : NFT) (cid : Cid) : Except NFTError (NFTState × NFT) :=
  match alookup n.bs cid with
  | none => .error (.NFTState (.Storage "state not found"))
  | some newState => .ok (n.state, { n with state := newState })

/-- `NFT::transaction`: run the closure on a private copy of the state; on
success the copy replaces the live state, on failure the live state is left
untouched and the error propagates.  The closure's in-place mutation of its
copy is embedded as the closure returning the mutated copy. -/
def NFT.transaction {Res : Type} (n : NFT)
    (f : NFTState → Except NFTError (NFTState × Res)) :
    Except NFTError Res × NFT :=
  match f n.state with
  | .error e => (.error e, n)
  | .ok (st2, r) => (.ok r, { n with state := st2 })

/-- `NFT::balance_of`: resolve the address; an unresolved address is a valid
zero-balance state, any other messaging error propagates. -/
def NFT.balanceOf (n : NFT) (address : Address) : Except NFTError Nat :=
  match n.msg.resolveId address with
  | .ok owner => .ok (getBalance n.state owner)
  | .error (.AddressNotResolved _) => .ok 0
  | .error e => .error (.Messaging e)

/-- `NFT::transfer`: resolve both addresses, then inside a transaction check
ownership of every id and move it; on success build the intermediate for the
receiver hook.  The result is paired with the (possibly updated) handle. -/
def NFT.transfer (n : NFT) (owner recipient : Address)
    (tokenIds : List TokenID) :
    Except NFTError TransferIntermediate × NFT :=
  match n.msg.resolveOrInit owner with
  | .error e => (.error (.Messaging e), n)
  | .ok ownerId =>
    match n.msg.resolveOrInit recipient with
    | .error e => (.error (.Messaging e), n)
    | .ok recipientId =>
      let tr := n.transaction (fun st =>
        match transferLoop ownerId recipientId tokenIds st.tokenData st.ownerData with
        | .error e => .error (.NFTState e)
        | .ok p => .ok ({ st with tokenData := p.1, ownerData := p.2 }, ()))
      match tr.1 with
      | .error e => (.error e, tr.2)
      | .ok _ =>
        (.ok { tokenIds := tokenIds, toId := recipientId, fromId := ownerId,
               recipientData := [] }, tr.2)

/-- `NFT::burn`: burn a set of NFTs as the owner; the state-level
`burn_tokens` is all-or-nothing (modelled from the spec), returning the
owner's remaining balance. -/
def NFT.burn (n : NFT) (ownerId : ActorID) (tokenIds : List TokenID) :
    Except NFTError Nat × NFT :=
  match burnLoop ownerId tokenIds n.state.tokenData n.state.ownerData with
  | .error e => (.error (.NFTState e), n)
  | .ok p =>
    let st2 : NFTState :=
      { n.state with
        tokenData := p.1
        ownerData := p.2
        totalSupply := n.state.totalSupply - tokenIds.length }
    (.ok (getBalance st2 ownerId), { n with state := st2 })

/-- `NFT::revoke`: resolve the caller; if the operator address does not
resolve this is a no-op returning success; otherwise revoke the operator on
each listed token. -/
def NFT.revoke (n : NFT) (caller operatorAddr : Address)
    (tokenIds : List TokenID) : Except NFTError Unit × NFT :=
  match n.msg.resolveId caller with
  | .error e => (.error (.Messaging e), n)
  | .ok callerId =>
    match n.msg.resolveId operatorAddr with
    | .error _ => (.ok (), n)
    | .ok opId =>
      match revokeLoop callerId opId tokenIds n.state.tokenData with
      | .error e => (.error (.NFTState e), n)
      | .ok ta => (.ok (), { n with state := { n.state with tokenData := ta } })

/-- `NFT::revoke_for_all`: resolve the owner; if the operator address does
not resolve this is a no-op returning success; otherwise remove the operator
from the owner's account-level operator list. -/
def NFT.revokeForAll (n : NFT) (owner operatorAddr : Address) :
    Except NFTError Unit × NFT :=
  match n.msg.resolveId owner with
  | .error e => (.error (.Messaging e), n)
  | .ok ownerId =>
    match n.msg.resolveId operatorAddr with
    | .error _ => (.ok (), n)
    | .ok opId => (.ok (), { n with state := stateRevokeForAll n.state ownerId opId })

/-- `NFT::reload_if_changed`: compare the actor's current root against the
expected content address; when they differ, replace the in-memory state with
a fresh load from the current root and return the old state. -/
def NFT.reloadIfChanged (n : NFT) (expectedCid : Cid) :
    Except NFTError (Option NFTState × NFT) :=
  match n.actorRoot with
  | .error e => .error (.Actor e)
  | .ok currentCid =>
    if currentCid ≠ expectedCid then
      match n.loadReplace currentCid with
      | .error e => .error e
      | .ok p => .ok (some p.1, p.2)
    else .ok (none, n)

/-- `NFT::transfer_return`: reconcile against a possible reentrant mutation,
then compute the return value from the (now current) state. -/
def NFT.transferReturn (n : NFT) (intermediate : TransferIntermediate)
    (priorStateCid : Cid) : Except NFTError (TransferReturn × NFT) :=
  match n.reloadIfChanged priorStateCid with
  | .error e => .error e
  | .ok p => .ok (stateTransferReturn p.2.state intermediate, p.2)

/-- `NFT::transfer_from_return`. -/
def NFT.transferFromReturn (n : NFT) (intermediate : TransferFromIntermediate)
    (priorStateCid : Cid) : Except NFTError (TransferFromReturn × NFT) :=
  match n.reloadIfChanged priorStateCid with
  | .error e => .error e
  | .ok p => .ok (stateTransferFromReturn p.2.state intermediate, p.2)

/-- `NFT::mint_return`. -/
def NFT.mintReturn (n : NFT) (intermediate : MintIntermediate)
    (priorStateCid : Cid) : Except NFTError (MintReturn × NFT) :=
  match n.reloadIfChanged priorStateCid with
  | .error e => .error e
  | .ok p => .ok (stateMintReturn p.2.state intermediate, p.2)

/-- Modelled from the spec: the fungible ledger state of the `frc46_token`
library (not among the provided sources) — balances, allowances and total
supply. -/
structure TokenState where
  supply : Int
  balances : List (ActorID × Int)
  allowances : List (ActorID × List (ActorID × Int))
deriving DecidableEq, Repr

/-- Errors of the fungible token library (subset relevant here). -/
inductive TokenError where
  | InsufficientBalance
  | InsufficientAllowance
  | InvalidGranularity
  | Messaging (e : MessagingError)
deriving DecidableEq, Repr

def tokenBalance (st : TokenState) (a : ActorID) : Int :=
  (alookup st.balances a).getD 0

def tokenAllowance (st : TokenState) (owner spender : ActorID) : Int :=
  ((alookup st.allowances owner).bind (fun l => alookup l spender)).getD 0

/-- The pending receiver hook produced by a fungible mutation: destination,
source and amount of the notification that is still to be sent. -/
structure FRC46HookSpec where
  toId : ActorID
  fromId : ActorID
  amount : Int
deriving DecidableEq, Repr

/-- Modelled from the spec: `Token::transfer` of the `frc46_token` library
(not among the provided sources) — resolve the owner and recipient, check
granularity and balance, debit/credit inside a transaction and return the
post-transfer state together with a pending receiver hook; it performs no
cross-actor call and no root update itself. -/
def tokenTransfer (msg : Messenger) (granularity : Nat) (st : TokenState)
    (fromAddr toAddr : Address) (amount : Int) :
    Except TokenError (TokenState × FRC46HookSpec) :=
  if amount < 0 ∨ amount % (granularity : Int) ≠ 0 then
    .error .InvalidGranularity
  else
    match msg.resolveOrInit fromAddr with
    | .error e => .error (.Messaging e)
    | .ok fromId =>
      match msg.resolveOrInit toAddr with
      | .error e => .error (.Messaging e)
      | .ok toId =>
        if tokenBalance st fromId < amount then .error .InsufficientBalance
        else
          let b1 := aset st.balances fromId (tokenBalance st fromId - amount)
          let st1 := { st with balances := b1 }
          let b2 := aset st1.balances toId (tokenBalance st1 toId + amount)
          let st2 := { st1 with balances := b2 }
          .ok (st2, { toId := toId, fromId := fromId, amount := amount })

/-- Modelled from the spec: `Token::transfer_from` of the `frc46_token`
library (not among the provided sources) — like transfer, but the operator
spends the owner's allowance. -/
def tokenTransferFrom (msg : Messenger) (granularity : Nat) (st : TokenState)
    (operatorAddr fromAddr toAddr : Address) (amount : Int) :
    Except TokenError (TokenState × FRC46HookSpec) :=
  if amount < 0 ∨ amount % (granularity : Int) ≠ 0 then
    .error .InvalidGranularity
  else
    match msg.resolveId operatorAddr with
    | .error e => .error (.Messaging e)
    | .ok opId =>
      match msg.resolveOrInit fromAddr with
      | .error e => .error (.Messaging e)
      | .ok fromId =>
        match msg.resolveOrInit toAddr with
        | .error e => .error (.Messaging e)
        | .ok toId =>
          if tokenAllowance st fromId opId < amount then
            .error .InsufficientAllowance
          else if tokenBalance st fromId < amount then
            .error .InsufficientBalance
          else
            let newAllow := aset ((alookup st.allowances fromId).getD [])
              opId (tokenAllowance st fromId opId - amount)
            let a1 := aset st.allowances fromId newAllow
            let st0 := { st with allowances := a1 }
            let b1 := aset st0.balances fromId (tokenBalance st0 fromId - amount)
            let st1 := { st0 with balances := b1 }
            let b2 := aset st1.balances toId (tokenBalance st1 toId + amount)
            let st2 := { st1 with balances := b2 }
            .ok (st2, { toId := toId, fromId := fromId, amount := amount })

/-- Modelled from the spec: `Token::mint` of the `frc46_token` library (not
among the provided sources) — credit the target balance, increase the total
supply and return a pending receiver hook. -/
def tokenMint (msg : Messenger) (granularity : Nat) (st : TokenState)
    (operatorAddr toAddr : Address) (amount : Int) :
    Except TokenError (TokenState × FRC46HookSpec) :=
  if amount < 0 ∨ amount % (granularity : Int) ≠ 0 then
    .error .InvalidGranularity
  else
    match msg.resolveId operatorAddr with
    | .error e => .error (.Messaging e)
    | .ok opId =>
      match msg.resolveOrInit toAddr with
      | .error e => .error (.Messaging e)
      | .ok toId =>
        let st2 := { st with
          supply := st.supply + amount
          balances := aset st.balances toId (tokenBalance st toId + amount) }
        .ok (st2, { toId := toId, fromId := opId, amount := amount })

/-- The actor-level state of the factory token
(`frc46_factory_token::FactoryTokenState`): the fungible ledger plus
metadata and the optional authorised minter (absence permanently disables
minting). -/
structure FactoryTokenState where
  token : TokenState
  name : String
  symbol : String
  granularity : Nat
  minter : Option ActorID
deriving DecidableEq, Repr

/-- Errors of the factory token actor (`frc46_factory_token::RuntimeError`,
subset relevant here). -/
inductive RuntimeError where
  | Token (e : TokenError)
  | NoState
  | Deserialization (s : String)
  | AddressNotAuthorized
  | MintingDisabled
deriving DecidableEq, Repr

/-- Externally observable events of a factory-token method execution:
writing a block to the blockstore, installing a root, and the cross-actor
receiver-hook call. -/
inductive FEvent where
  | putBlock (c : Cid)
  | setRoot (c : Cid)
  | hookCall (toId fromId : ActorID) (amount : Int)
deriving DecidableEq, Repr

/-- The world surrounding the factory token actor: the content-addressed
blockstore, the persisted actor root, the next content address the
blockstore hands out, the caller id and the messaging capability. -/
structure FactoryWorld where
  bs : List (Cid × FactoryTokenState)
  root : Cid
  freshCid : Cid
  caller : ActorID
  msg : Messenger
deriving Repr

/-- Return value of the fungible transfer/mint after the hook (modelled
from the spec: computed from the reloaded, truly-current state). -/
structure FRC46OpReturn where
  fromBalance : Int
  toBalance : Int
  supply : Int
deriving DecidableEq, Repr

def frc46OpReturn (t : TokenState) (hook : FRC46HookSpec) : FRC46OpReturn :=
  { fromBalance := tokenBalance t hook.fromId
    toBalance := tokenBalance t hook.toId
    supply := t.supply }

/-- The shared tail of `FactoryToken::{transfer, transfer_from, mint}`
(`frc46_factory_token/token_impl/src/lib.rs`): `save()` the post-mutation
state, `set_root` its content address, `hook.call(...)` (the environment
`hookRun` may reentrantly mutate the world), then `reload` — load the state
fresh from the current root when it diverged from the saved address.
Returns the state used for the return value, the final world, and the event
trace. -/
def hookPhase (w : FactoryWorld) (stPost : FactoryTokenState)
    (hook : FRC46HookSpec) (hookRun : FactoryWorld → FactoryWorld) :
    Option FactoryTokenState × FactoryWorld × List FEvent :=
  let c := w.freshCid
  let w1 : FactoryWorld := { w with
    bs := (c, stPost) :: w.bs
    freshCid := c + 1 }
  let w2 : FactoryWorld := { w1 with root := c }
  let w3 := hookRun w2
  let stF := if w3.root = c then some stPost else alookup w3.bs w3.root
  (stF, w3, [.putBlock c, .setRoot c, .hookCall hook.toId hook.fromId hook.amount])

/-- `FactoryToken::transfer`: run the fungible transfer, flush and install
the post-mutation root, call the receiver hook, reconcile and compute the
return value. -/
def factoryTransfer (w : FactoryWorld) (st : FactoryTokenState)
    (toAddr : Address) (amount : Int)
    (hookRun : FactoryWorld → FactoryWorld) :
    Except RuntimeError FRC46OpReturn × FactoryTokenState × FactoryWorld × List FEvent :=
  match tokenTransfer w.msg st.granularity st.token (.id w.caller) toAddr amount with
  | .error e => (.error (.Token e), st, w, [])
  | .ok p =>
    let stPost := { st with token := p.1 }
    let hp := hookPhase w stPost p.2 hookRun
    match hp.1 with
    | none => (.error (.Deserialization "no data found"), stPost, hp.2.1, hp.2.2)
    | some stF => (.ok (frc46OpReturn stF.token p.2), stF, hp.2.1, hp.2.2)

/-- `FactoryToken::transfer_from`. -/
def factoryTransferFrom (w : FactoryWorld) (st : FactoryTokenState)
    (fromAddr toAddr : Address) (amount : Int)
    (hookRun : FactoryWorld → FactoryWorld) :
    Except RuntimeError FRC46OpReturn × FactoryTokenState × FactoryWorld × List FEvent :=
  match tokenTransferFrom w.msg st.granularity st.token (.id w.caller) fromAddr
      toAddr amount with
  | .error e => (.error (.Token e), st, w, [])
  | .ok p =>
    let stPost := { st with token := p.1 }
    let hp := hookPhase w stPost p.2 hookRun
    match hp.1 with
    | none => (.error (.Deserialization "no data found"), stPost, hp.2.1, hp.2.2)
    | some stF => (.ok (frc46OpReturn stF.token p.2), stF, hp.2.1, hp.2.2)

/-- `FactoryToken::mint`: the absence of a minter permanently disables
minting; an unauthorised caller is rejected; otherwise mint, flush and
install the post-mutation root, call the receiver hook, reconcile and
compute the return value. -/
def factoryMint (w : FactoryWorld) (st : FactoryTokenState)
    (initialOwner : Address) (amount : Int)
    (hookRun : FactoryWorld → FactoryWorld) :
    Except RuntimeError FRC46OpReturn × FactoryTokenState × FactoryWorld × List FEvent :=
  match st.minter with
  | none => (.error .MintingDisabled, st, w, [])
  | some minter =>
    if w.caller ≠ minter then (.error .AddressNotAuthorized, st, w, [])
    else
      match tokenMint w.msg st.granularity st.token (.id w.caller) initialOwner
          amount with
      | .error e => (.error (.Token e), st, w, [])
      | .ok p =>
        let stPost := { st with token := p.1 }
        let hp := hookPhase w stPost p.2 hookRun
        match hp.1 with
        | none => (.error (.Deserialization "no data found"), stPost, hp.2.1, hp.2.2)
        | some stF => (.ok (frc46OpReturn stF.token p.2), stF, hp.2.1, hp.2.2)

/-- `FactoryToken::disable_mint`: fails with `MintingDisabled` when minting
is already disabled, with `AddressNotAuthorized` when the caller is not the
current minter, and otherwise clears the minter field. -/
def disableMint (w : FactoryWorld) (st : FactoryTokenState) :
    Except RuntimeError Unit × FactoryTokenState :=
  match st.minter with
  | none => (.error .MintingDisabled, st)
  | some minter =>
    if w.caller ≠ minter then (.error .AddressNotAuthorized, st)
    else (.ok (), { st with minter := none })

/-- The first element of the list that repeats an element seen earlier
(candidates already seen are accumulated in `seen`).  Used to express which
occurrence of a duplicated id a batch transfer fails on. -/
def firstRepeat (seen : List TokenID) : List TokenID → Option TokenID
  | [] => none
  | t :: ts => if t ∈ seen then some t else firstRepeat (t :: seen) ts

/-- Whether an `Except` value is a success. -/
def isOkE {ε α : Type} : Except ε α → Bool
  | .ok _ => true
  | .error _ => false

/-- Sample messenger: keyed address 7 fails with a syscall error, every
other keyed address is unresolved. -/
def msg0 : Messenger :=
  { resolveTbl := [(7, .error (.Syscall 5))], initTbl := [] }

/-- Sample ledger: actor 1 owns tokens 0, 1 and 2. -/
def st0 : NFTState :=
  { tokenData := [(0, ⟨1, [], ""⟩), (1, ⟨1, [], ""⟩), (2, ⟨1, [], ""⟩)]
    ownerData := [(1, ⟨3, []⟩)]
    totalSupply := 3
    nextToken := 3 }

/-- A diverged ledger (as left behind by a reentrant call): token 0 moved
from actor 1 to actor 2. -/
def st1 : NFTState :=
  { tokenData := [(0, ⟨2, [], ""⟩), (1, ⟨1, [], ""⟩), (2, ⟨1, [], ""⟩)]
    ownerData := [(1, ⟨2, []⟩), (2, ⟨1, []⟩)]
    totalSupply := 3
    nextToken := 3 }

/-- Sample NFT handle whose persisted root matches its in-memory state. -/
def nft0 : NFT :=
  { bs := [(10, st0)], msg := msg0, actorRoot := .ok 10, state := st0 }

/-- Sample NFT handle after a reentrant mutation: the in-memory state is the
pre-hook snapshot flushed at address 10, but the actor root now points at
address 11. -/
def nft1 : NFT :=
  { bs := [(10, st0), (11, st1)], msg := msg0, actorRoot := .ok 11, state := st0 }

/-- Sample closure that always fails, for exercising `NFT::transaction`. -/
def failClosure : NFTState → Except NFTError (NFTState × Unit) :=
  fun _ => .error (.Actor .NoState)

/-- Sample fungible token state: actor 1 holds 10 units. -/
def ftok0 : TokenState :=
  { supply := 10, balances := [(1, 10)], allowances := [] }

/-- Sample factory token actor state with minter 1. -/
def fst0 : FactoryTokenState :=
  { token := ftok0, name := "Test Token", symbol := "TEST", granularity := 1,
    minter := some 1 }

/-- Same factory token state with minting permanently disabled. -/
def fstDisabled : FactoryTokenState := { fst0 with minter := none }

/-- Sample world for the factory token actor, caller is actor 1. -/
def fw0 : FactoryWorld :=
  { bs := [], root := 0, freshCid := 1, caller := 1, msg := msg0 }

/-- Same world with caller 2 (not the minter). -/
def fw2 : FactoryWorld := { fw0 with caller := 2 }

/-- The world as it stands immediately before the receiver-hook call in the
factory token methods: the post-mutation state flushed at the next fresh
content address, which is also installed as the actor root. -/
def postWorld (w : FactoryWorld) (stPost : FactoryTokenState) : FactoryWorld :=
  { w with
    bs := (w.freshCid, stPost) :: w.bs
    freshCid := w.freshCid + 1
    root := w.freshCid }

theorem alookup_cons {α β : Type} [DecidableEq α] (k : α) (w : β)
    (rest : List (α × β)) (a : α) :
    alookup ((k, w) :: rest) a = if k = a then some w else alookup rest a := rfl

theorem aupdate_cons {α β : Type} [DecidableEq α] (k : α) (w : β)
    (rest : List (α × β)) (a : α) (v : β) :
    aupdate ((k, w) :: rest) a v =
      (if k = a then (a, v) else (k, w)) :: aupdate rest a v := rfl

theorem aremove_cons {α β : Type} [DecidableEq α] (k : α) (w : β)
    (rest : List (α × β)) (a : α) :
    aremove ((k, w) :: rest) a =
      if k = a then aremove rest a else (k, w) :: aremove rest a := by
  by_cases hk : k = a <;> simp [aremove, List.filter_cons, hk]

theorem alookup_aupdate_self {α β : Type} [DecidableEq α] :
    ∀ (l : List (α × β)) (a : α) (b v : β), alookup l a = some b →
      alookup (aupdate l a v) a = some v
  | [], a, b, v, h => by simp [alookup] at h
  | (k, w) :: rest, a, b, v, h => by
    rw [aupdate_cons]
    by_cases hk : k = a
    · rw [if_pos hk, alookup_cons, if_pos rfl]
    · rw [alookup_cons, if_neg hk] at h
      rw [if_neg hk, alookup_cons, if_neg hk]
      exact alookup_aupdate_self rest a b v h

theorem alookup_aupdate_other {α β : Type} [DecidableEq α] :
    ∀ (l : List (α × β)) (a x : α) (v : β), x ≠ a →
      alookup (aupdate l a v) x = alookup l x
  | [], _, _, _, _ => rfl
  | (k, w) :: rest, a, x, v, hx => by
    rw [aupdate_cons]
    by_cases hk : k = a
    · have hax : ¬ a = x := fun h => hx h.symm
      have hkx : ¬ k = x := fun h => hax (hk ▸ h)
      rw [if_pos hk]
      simp only [alookup_cons]
      rw [if_neg hax, if_neg hkx]
      exact alookup_aupdate_other rest a x v hx
    · rw [if_neg hk]
      simp only [alookup_cons]
      by_cases hkx : k = x
      · rw [if_pos hkx, if_pos hkx]
      · rw [if_neg hkx, if_neg hkx]
        exact alookup_aupdate_other rest a x v hx

theorem alookup_aremove_self {α β : Type} [DecidableEq α] :
    ∀ (l : List (α × β)) (a : α), alookup (aremove l a) a = none
  | [], _ => rfl
  | (k, w) :: rest, a => by
    rw [aremove_cons]
    by_cases hk : k = a
    · rw [if_pos hk]
      exact alookup_aremove_self rest a
    · rw [if_neg hk, alookup_cons, if_neg hk]
      exact alookup_aremove_self rest a

theorem alookup_aremove_other {α β : Type} [DecidableEq α] :
    ∀ (l : List (α × β)) (a x : α), x ≠ a →
      alookup (aremove l a) x = alookup l x
  | [], _, _, _ => rfl
  | (k, w) :: rest, a, x, hx => by
    rw [aremove_cons, alookup_cons]
    by_cases hk : k = a
    · have hkx : ¬ k = x := fun h => hx (h ▸ hk)
      rw [if_pos hk, if_neg hkx]
      exact alookup_aremove_other rest a x hx
    · rw [if_neg hk, alookup_cons]
      by_cases hkx : k = x
      · rw [if_pos hkx, if_pos hkx]
      · rw [if_neg hkx, if_neg hkx]
        exact alookup_aremove_other rest a x hx

theorem ownsToken_ok_lookup (ta : List (TokenID × TokenData)) (o : ActorID)
    (u : TokenID) (td : TokenData) (h : ownsToken ta o u = .ok td) :
    alookup ta u = some td ∧ td.owner = o := by
  unfold ownsToken at h
  split at h
  · simp at h
  · rename_i td2 hl
    split at h
    · rename_i ho
      cases h
      exact ⟨hl, ho⟩
    · simp at h

theorem ownsToken_error_cases (ta : List (TokenID × TokenData)) (o : ActorID)
    (u : TokenID) (e : StateError) (h : ownsToken ta o u = .error e) :
    (e = .TokenNotFound u ∧ alookup ta u = none) ∨ e = .NotOwner o u := by
  unfold ownsToken at h
  split at h
  · rename_i hl
    cases h
    exact Or.inl ⟨rfl, hl⟩
  · rename_i td2 hl
    split at h
    · simp at h
    · cases h
      exact Or.inr rfl

theorem makeTransfer_lookup_other (ta : List (TokenID × TokenData))
    (om : List (ActorID × OwnerData)) (t : TokenID) (r : ActorID)
    (x : TokenID) (hx : x ≠ t) :
    alookup (makeTransfer ta om t r).1 x = alookup ta x := by
  unfold makeTransfer
  cases h : alookup ta t with
  | none => rfl
  | some td => exact alookup_aupdate_other ta t x _ hx

theorem makeTransfer_lookup_self (ta : List (TokenID × TokenData))
    (om : List (ActorID × OwnerData)) (t : TokenID) (r : ActorID)
    (td : TokenData) (h : alookup ta t = some td) :
    alookup (makeTransfer ta om t r).1 t =
      some { td with owner := r, operators := [] } := by
  unfold makeTransfer
  rw [h]
  exact alookup_aupdate_self ta t td _ h

theorem ownsToken_none (ta : List (TokenID × TokenData)) (o : ActorID)
    (u : TokenID) (h : alookup ta u = none) :
    ownsToken ta o u = .error (.TokenNotFound u) := by
  unfold ownsToken
  rw [h]

theorem ownsToken_some (ta : List (TokenID × TokenData)) (o : ActorID)
    (u : TokenID) (td : TokenData) (h : alookup ta u = some td) :
    ownsToken ta o u =
      if td.owner = o then .ok td else .error (.NotOwner o u) := by
  unfold ownsToken
  rw [h]

theorem firstRepeat_cons (seen : List TokenID) (t : TokenID)
    (ts : List TokenID) :
    firstRepeat seen (t :: ts) =
      if t ∈ seen then some t else firstRepeat (t :: seen) ts := rfl

theorem transferLoop_cons_error (o r : ActorID) (u : TokenID)
    (rest : List TokenID) (ta : List (TokenID × TokenData))
    (om : List (ActorID × OwnerData)) (e : StateError)
    (h : ownsToken ta o u = .error e) :
    transferLoop o r (u :: rest) ta om = .error e := by
  conv_lhs => unfold transferLoop
  rw [h]

theorem transferLoop_cons_ok (o r : ActorID) (u : TokenID)
    (rest : List TokenID) (ta : List (TokenID × TokenData))
    (om : List (ActorID × OwnerData)) (td : TokenData)
    (h : ownsToken ta o u = .ok td) :
    transferLoop o r (u :: rest) ta om =
      transferLoop o r rest (makeTransfer ta om u r).1 (makeTransfer ta om u r).2 := by
  conv_lhs => unfold transferLoop
  rw [h]

theorem burnLoop_cons_error (o : ActorID) (u : TokenID)
    (rest : List TokenID) (ta : List (TokenID × TokenData))
    (om : List (ActorID × OwnerData)) (e : StateError)
    (h : ownsToken ta o u = .error e) :
    burnLoop o (u :: rest) ta om = .error e := by
  conv_lhs => unfold burnLoop
  rw [h]

theorem burnLoop_cons_ok (o : ActorID) (u : TokenID)
    (rest : List TokenID) (ta : List (TokenID × TokenData))
    (om : List (ActorID × OwnerData)) (td : TokenData)
    (h : ownsToken ta o u = .ok td) :
    burnLoop o (u :: rest) ta om =
      burnLoop o rest (aremove ta u)
        (aset om o { getOwnerData om o with balance := (getOwnerData om o).balance - 1 }) := by
  conv_lhs => unfold burnLoop
  rw [h]

theorem transferLoop_missing (o r : ActorID) :
    ∀ (ids : List TokenID) (ta : List (TokenID × TokenData))
      (om : List (ActorID × OwnerData)) (t : TokenID), t ∈ ids →
      alookup ta t = none →
      ∃ e, transferLoop o r ids ta om = .error e
  | [], _, _, _, ht, _ => absurd ht (List.not_mem_nil _)
  | u :: rest, ta, om, t, ht, hnone => by
    by_cases hut : u = t
    · subst hut
      exact ⟨.TokenNotFound u,
        transferLoop_cons_error o r u rest ta om _ (ownsToken_none ta o u hnone)⟩
    · cases hcheck : ownsToken ta o u with
      | error e => exact ⟨e, transferLoop_cons_error o r u rest ta om e hcheck⟩
      | ok td =>
        have ht2 : t ∈ rest := by
          cases List.mem_cons.mp ht with
          | inl h => exact absurd h.symm hut
          | inr h => exact h
        have hnone2 : alookup (makeTransfer ta om u r).1 t = none := by
          rw [makeTransfer_lookup_other ta om u r t (fun h => hut h.symm)]
          exact hnone
        obtain ⟨e, he⟩ := transferLoop_missing o r rest _ _ t ht2 hnone2
        exact ⟨e, by rw [transferLoop_cons_ok o r u rest ta om td hcheck]; exact he⟩

theorem transferLoop_wrongOwner (o r : ActorID) :
    ∀ (ids : List TokenID) (ta : List (TokenID × TokenData))
      (om : List (ActorID × OwnerData)) (t : TokenID) (td : TokenData),
      t ∈ ids → alookup ta t = some td → td.owner ≠ o →
      ∃ e, transferLoop o r ids ta om = .error e
  | [], _, _, _, _, ht, _, _ => absurd ht (List.not_mem_nil _)
  | u :: rest, ta, om, t, td, ht, hsome, howner => by
    by_cases hut : u = t
    · subst hut
      refine ⟨.NotOwner o u, transferLoop_cons_error o r u rest ta om _ ?_⟩
      rw [ownsToken_some ta o u td hsome, if_neg howner]
    · cases hcheck : ownsToken ta o u with
      | error e => exact ⟨e, transferLoop_cons_error o r u rest ta om e hcheck⟩
      | ok tdu =>
        have ht2 : t ∈ rest := by
          cases List.mem_cons.mp ht with
          | inl h => exact absurd h.symm hut
          | inr h => exact h
        have hsome2 : alookup (makeTransfer ta om u r).1 t = some td := by
          rw [makeTransfer_lookup_other ta om u r t (fun h => hut h.symm)]
          exact hsome
        obtain ⟨e, he⟩ := transferLoop_wrongOwner o r rest _ _ t td ht2 hsome2 howner
        exact ⟨e, by rw [transferLoop_cons_ok o r u rest ta om tdu hcheck]; exact he⟩

theorem transferLoop_error_classify (o r : ActorID) :
    ∀ (ids : List TokenID) (ta : List (TokenID × TokenData))
      (om : List (ActorID × OwnerData)) (e : StateError),
      transferLoop o r ids ta om = .error e →
      (∃ t, t ∈ ids ∧ e = .TokenNotFound t ∧ alookup ta t = none) ∨
      (∃ t, t ∈ ids ∧ e = .NotOwner o t)
  | [], ta, om, e, h => by simp [transferLoop] at h
  | u :: rest, ta, om, e, h => by
    cases hcheck : ownsToken ta o u with
    | error e0 =>
      rw [transferLoop_cons_error o r u rest ta om e0 hcheck] at h
      injection h with he
      cases ownsToken_error_cases ta o u e0 hcheck with
      | inl hc => exact Or.inl ⟨u, List.mem_cons_self u rest, he ▸ hc.1, hc.2⟩
      | inr hc => exact Or.inr ⟨u, List.mem_cons_self u rest, he ▸ hc⟩
    | ok td =>
      rw [transferLoop_cons_ok o r u rest ta om td hcheck] at h
      obtain ⟨hu, _⟩ := ownsToken_ok_lookup ta o u td hcheck
      cases transferLoop_error_classify o r rest _ _ e h with
      | inl hc =>
        obtain ⟨t, htm, hte, htn⟩ := hc
        have hut : t ≠ u := by
          intro hq
          subst hq
          rw [makeTransfer_lookup_self ta om t r td hu] at htn
          cases htn
        left
        refine ⟨t, List.mem_cons_of_mem u htm, hte, ?_⟩
        rw [makeTransfer_lookup_other ta om u r t hut] at htn
        exact htn
      | inr hc =>
        obtain ⟨t, htm, hte⟩ := hc
        exact Or.inr ⟨t, List.mem_cons_of_mem u htm, hte⟩

theorem burnLoop_missing (o : ActorID) :
    ∀ (ids : List TokenID) (ta : List (TokenID × TokenData))
      (om : List (ActorID × OwnerData)) (t : TokenID), t ∈ ids →
      alookup ta t = none →
      ∃ e, burnLoop o ids ta om = .error e
  | [], _, _, _, ht, _ => absurd ht (List.not_mem_nil _)
  | u :: rest, ta, om, t, ht, hnone => by
    by_cases hut : u = t
    · subst hut
      exact ⟨.TokenNotFound u,
        burnLoop_cons_error o u rest ta om _ (ownsToken_none ta o u hnone)⟩
    · cases hcheck : ownsToken ta o u with
      | error e => exact ⟨e, burnLoop_cons_error o u rest ta om e hcheck⟩
      | ok td =>
        have ht2 : t ∈ rest := by
          cases List.mem_cons.mp ht with
          | inl h => exact absurd h.symm hut
          | inr h => exact h
        have hnone2 : alookup (aremove ta u) t = none := by
          rw [alookup_aremove_other ta u t (fun h => hut h.symm)]
          exact hnone
        obtain ⟨e, he⟩ := burnLoop_missing o rest _ _ t ht2 hnone2
        exact ⟨e, by rw [burnLoop_cons_ok o u rest ta om td hcheck]; exact he⟩

theorem burnLoop_wrongOwner (o : ActorID) :
    ∀ (ids : List TokenID) (ta : List (TokenID × TokenData))
      (om : List (ActorID × OwnerData)) (t : TokenID) (td : TokenData),
      t ∈ ids → alookup ta t = some td → td.owner ≠ o →
      ∃ e, burnLoop o ids ta om = .error e
  | [], _, _, _, _, ht, _, _ => absurd ht (List.not_mem_nil _)
  | u :: rest, ta, om, t, td, ht, hsome, howner => by
    by_cases hut : u = t
    · subst hut
      refine ⟨.NotOwner o u, burnLoop_cons_error o u rest ta om _ ?_⟩
      rw [ownsToken_some ta o u td hsome, if_neg howner]
    · cases hcheck : ownsToken ta o u with
      | error e => exact ⟨e, burnLoop_cons_error o u rest ta om e hcheck⟩
      | ok tdu =>
        have ht2 : t ∈ rest := by
          cases List.mem_cons.mp ht with
          | inl h => exact absurd h.symm hut
          | inr h => exact h
        have hsome2 : alookup (aremove ta u) t = some td := by
          rw [alookup_aremove_other ta u t (fun h => hut h.symm)]
          exact hsome
        obtain ⟨e, he⟩ := burnLoop_wrongOwner o rest _ _ t td ht2 hsome2 howner
        exact ⟨e, by rw [burnLoop_cons_ok o u rest ta om tdu hcheck]; exact he⟩

theorem burnLoop_error_classify (o : ActorID) :
    ∀ (ids : List TokenID) (ta : List (TokenID × TokenData))
      (om : List (ActorID × OwnerData)) (e : StateError),
      burnLoop o ids ta om = .error e →
      (∃ t, t ∈ ids ∧ e = .TokenNotFound t) ∨
      (∃ t, t ∈ ids ∧ e = .NotOwner o t)
  | [], ta, om, e, h => by simp [burnLoop] at h
  | u :: rest, ta, om, e, h => by
    cases hcheck : ownsToken ta o u with
    | error e0 =>
      rw [burnLoop_cons_error o u rest ta om e0 hcheck] at h
      injection h with he
      cases ownsToken_error_cases ta o u e0 hcheck with
      | inl hc => exact Or.inl ⟨u, List.mem_cons_self u rest, he ▸ hc.1⟩
      | inr hc => exact Or.inr ⟨u, List.mem_cons_self u rest, he ▸ hc⟩
    | ok td =>
      rw [burnLoop_cons_ok o u rest ta om td hcheck] at h
      cases burnLoop_error_classify o rest _ _ e h with
      | inl hc =>
        obtain ⟨t, htm, hte⟩ := hc
        exact Or.inl ⟨t, List.mem_cons_of_mem u htm, hte⟩
      | inr hc =>
        obtain ⟨t, htm, hte⟩ := hc
        exact Or.inr ⟨t, List.mem_cons_of_mem u htm, hte⟩

theorem transferLoop_dup (o r : ActorID) (hro : r ≠ o) :
    ∀ (ids seen : List TokenID) (ta : List (TokenID × TokenData))
      (om : List (ActorID × OwnerData)) (d : TokenID),
      (∀ t ∈ ids, ∃ td, alookup ta t = some td ∧
        td.owner = (if t ∈ seen then r else o)) →
      firstRepeat seen ids = some d →
      transferLoop o r ids ta om = .error (.NotOwner o d)
  | [], seen, ta, om, d, hinv, hfr => by simp [firstRepeat] at hfr
  | u :: rest, seen, ta, om, d, hinv, hfr => by
    obtain ⟨td, htd, howner⟩ := hinv u (List.mem_cons_self u rest)
    by_cases hu : u ∈ seen
    · have hd : u = d := by
        rw [firstRepeat_cons, if_pos hu] at hfr
        exact Option.some.inj hfr
      subst hd
      rw [if_pos hu] at howner
      apply transferLoop_cons_error
      rw [ownsToken_some ta o u td htd, if_neg (fun hq => hro (howner ▸ hq))]
    · rw [if_neg hu] at howner
      rw [firstRepeat_cons, if_neg hu] at hfr
      have hcheck : ownsToken ta o u = .ok td := by
        rw [ownsToken_some ta o u td htd, if_pos howner]
      have hinv2 : ∀ t ∈ rest, ∃ td2, alookup (makeTransfer ta om u r).1 t = some td2 ∧
          td2.owner = (if t ∈ u :: seen then r else o) := by
        intro t htr
        by_cases htu : t = u
        · subst htu
          refine ⟨{ td with owner := r, operators := [] },
            makeTransfer_lookup_self ta om t r td htd, ?_⟩
          rw [if_pos (List.mem_cons_self t seen)]
        · obtain ⟨td2, h2, ho2⟩ := hinv t (List.mem_cons_of_mem u htr)
          refine ⟨td2, ?_, ?_⟩
          · rw [makeTransfer_lookup_other ta om u r t htu]
            exact h2
          · have hsame : (if t ∈ u :: seen then r else o) = (if t ∈ seen then r else o) := by
              by_cases hts : t ∈ seen
              · rw [if_pos (List.mem_cons_of_mem u hts), if_pos hts]
              · have : t ∉ u :: seen := fun hq =>
                  (List.mem_cons.mp hq).elim htu hts
                rw [if_neg this, if_neg hts]
            rw [hsame]
            exact ho2
      rw [transferLoop_cons_ok o r u rest ta om td hcheck]
      exact transferLoop_dup o r hro rest (u :: seen) _ _ d hinv2 hfr

theorem reloadIfChanged_result (n : NFT) (cr prior : Cid) (stCur : NFTState)
    (hroot : n.actorRoot = .ok cr)
    (hcur : alookup n.bs cr = some stCur)
    (hprior : alookup n.bs prior = some n.state) :
    n.reloadIfChanged prior =
      .ok (if cr = prior then none else some n.state, { n with state := stCur }) := by
  conv_lhs => unfold NFT.reloadIfChanged
  conv_lhs => rw [hroot]
  by_cases h : cr = prior
  · subst h
    have hst : stCur = n.state := Option.some.inj (hcur.symm.trans hprior)
    show (if cr ≠ cr then
        match n.loadReplace cr with
        | Except.error e => Except.error e
        | Except.ok p => Except.ok (some p.1, p.2)
      else Except.ok (none, n)) =
      Except.ok (if cr = cr then none else some n.state, { n with state := stCur })
    rw [if_neg (by simp), if_pos rfl, hst]
  · show (if cr ≠ prior then
        match n.loadReplace cr with
        | Except.error e => Except.error e
        | Except.ok p => Except.ok (some p.1, p.2)
      else Except.ok (none, n)) =
      Except.ok (if cr = prior then none else some n.state, { n with state := stCur })
    rw [if_pos h, if_neg h]
    conv_lhs => unfold NFT.loadReplace
    rw [hcur]

theorem NFT_transfer_eq (n : NFT) (owner recipient : Address) (oId rId : ActorID)
    (ids : List TokenID) (ho : n.msg.resolveOrInit owner = .ok oId)
    (hr : n.msg.resolveOrInit recipient = .ok rId) :
    n.transfer owner recipient ids =
      match transferLoop oId rId ids n.state.tokenData n.state.ownerData with
      | .error e => (.error (.NFTState e), n)
      | .ok p =>
        (.ok { tokenIds := ids, toId := rId, fromId := oId, recipientData := [] },
         { n with state := { n.state with tokenData := p.1, ownerData := p.2 } }) := by
  cases h : transferLoop oId rId ids n.state.tokenData n.state.ownerData with
  | error e => simp only [NFT.transfer, NFT.transaction, ho, hr, h]
  | ok p => simp only [NFT.transfer, NFT.transaction, ho, hr, h]

theorem NFT_burn_error (n : NFT) (bOwner : ActorID) (ids : List TokenID)
    (e : StateError)
    (h : burnLoop bOwner ids n.state.tokenData n.state.ownerData = .error e) :
    n.burn bOwner ids = (.error (.NFTState e), n) := by
  conv_lhs => unfold NFT.burn
  rw [h]

theorem NFT_burn_ok_isOk (n : NFT) (bOwner : ActorID) (ids : List TokenID)
    (p : List (TokenID × TokenData) × List (ActorID × OwnerData))
    (h : burnLoop bOwner ids n.state.tokenData n.state.ownerData = .ok p) :
    isOkE (n.burn bOwner ids).1 = true := by
  unfold NFT.burn
  rw [h]
  rfl

theorem hookPhase_tail (w : FactoryWorld) (stPost : FactoryTokenState)
    (hook : FRC46HookSpec) (hookRun : FactoryWorld → FactoryWorld) :
    (hookPhase w stPost hook hookRun).2 =
      (hookRun (postWorld w stPost),
       [.putBlock w.freshCid, .setRoot w.freshCid,
        .hookCall hook.toId hook.fromId hook.amount]) := rfl

theorem factoryTransfer_tail (w : FactoryWorld) (st : FactoryTokenState)
    (toAddr : Address) (amount : Int) (hookRun : FactoryWorld → FactoryWorld)
    (t2 : TokenState) (hook : FRC46HookSpec)
    (ht : tokenTransfer w.msg st.granularity st.token (.id w.caller) toAddr amount = .ok (t2, hook)) :
    (factoryTransfer w st toAddr amount hookRun).2.2 =
      (hookPhase w { st with token := t2 } hook hookRun).2 := by
  simp only [factoryTransfer, ht]
  cases (hookPhase w { st with token := t2 } hook hookRun).1 with
  | none => rfl
  | some stF => rfl

theorem factoryTransfer_error (w : FactoryWorld) (st : FactoryTokenState)
    (toAddr : Address) (amount : Int) (hookRun : FactoryWorld → FactoryWorld)
    (e : TokenError)
    (ht : tokenTransfer w.msg st.granularity st.token (.id w.caller) toAddr amount = .error e) :
    factoryTransfer w st toAddr amount hookRun = (.error (.Token e), st, w, []) := by
  unfold factoryTransfer
  rw [ht]

theorem factoryTransferFrom_tail (w : FactoryWorld) (st : FactoryTokenState)
    (fromAddr toAddr : Address) (amount : Int)
    (hookRun : FactoryWorld → FactoryWorld)
    (t2 : TokenState) (hook : FRC46HookSpec)
    (ht : tokenTransferFrom w.msg st.granularity st.token (.id w.caller) fromAddr toAddr amount = .ok (t2, hook)) :
    (factoryTransferFrom w st fromAddr toAddr amount hookRun).2.2 =
      (hookPhase w { st with token := t2 } hook hookRun).2 := by
  simp only [factoryTransferFrom, ht]
  cases (hookPhase w { st with token := t2 } hook hookRun).1 with
  | none => rfl
  | some stF => rfl

theorem factoryMint_tail (w : FactoryWorld) (st : FactoryTokenState)
    (initialOwner : Address) (amount : Int)
    (hookRun : FactoryWorld → FactoryWorld) (m : ActorID)
    (t2 : TokenState) (hook : FRC46HookSpec)
    (hm : st.minter = some m) (hc : w.caller = m)
    (ht : tokenMint w.msg st.granularity st.token (.id w.caller) initialOwner amount = .ok (t2, hook)) :
    (factoryMint w st initialOwner amount hookRun).2.2 =
      (hookPhase w { st with token := t2 } hook hookRun).2 := by
  simp only [factoryMint, hm]
  rw [if_neg (show ¬ w.caller ≠ m from fun hq => hq hc)]
  simp only [ht]
  cases (hookPhase w { st with token := t2, minter := some m } hook hookRun).1 with
  | none => rfl
  | some stF => rfl

/-- C1: For every transfer (resp. transfer_from, mint), when the matching
return constructor is invoked with the intermediate and `prior_state_cid`
after the receiver hook has run, and the actor's current root differs from
`prior_state_cid`, the in-memory state is replaced by a fresh load from the
current root before the return value is computed; hence the
balances/ownership in the returned TransferReturn/MintReturn are always
those of the state at the current root, never those of the pre-hook
snapshot. -/
theorem nft_return_reflects_current_root (n : NFT) (cr prior : Cid)
    (stCur : NFTState) (ti : TransferIntermediate)
    (tfi : TransferFromIntermediate) (mi : MintIntermediate)
    (hroot : n.actorRoot = .ok cr)
    (hcur : alookup n.bs cr = some stCur)
    (hprior : alookup n.bs prior = some n.state) :
    n.transferReturn ti prior =
      .ok (stateTransferReturn stCur ti, { n with state := stCur }) ∧
    n.transferFromReturn tfi prior =
      .ok (stateTransferFromReturn stCur tfi, { n with state := stCur }) ∧
    n.mintReturn mi prior =
      .ok (stateMintReturn stCur mi, { n with state := stCur }) := by
  have hrel := reloadIfChanged_result n cr prior stCur hroot hcur hprior
  refine ⟨?_, ?_, ?_⟩
  · unfold NFT.transferReturn
    rw [hrel]
  · unfold NFT.transferFromReturn
    rw [hrel]
  · unfold NFT.mintReturn
    rw [hrel]

/-- C1 witness: a handle whose root diverged during the hook (root 11,
pre-hook snapshot at 10): all three return constructors report the state
stored at root 11. -/
theorem nft_return_reflects_current_root_witness :
    nft1.transferReturn ⟨[0], 2, 1, []⟩ 10 =
      .ok (stateTransferReturn st1 ⟨[0], 2, 1, []⟩, { nft1 with state := st1 }) ∧
    nft1.actorRoot = .ok 11 ∧
    alookup nft1.bs 11 = some st1 ∧
    alookup nft1.bs 10 = some nft1.state :=
  ⟨(nft_return_reflects_current_root nft1 11 10 st1 ⟨[0], 2, 1, []⟩
      ⟨1, 1, 2, [0], []⟩ ⟨1, [0], []⟩ rfl rfl rfl).1, rfl, rfl, rfl⟩

/-- C2: In every transfer, transfer_from and mint operation of the factory
token actor, the post-mutation state is flushed to the blockstore and its
content address installed as the actor's root strictly before the
receiver-hook cross-actor call: the hook runs in `postWorld` (whose root
already addresses the flushed post-mutation state) and the event trace
places `setRoot` strictly before the single `hookCall`; when the token-level
mutation fails, no event — in particular no hook call — is emitted. -/
theorem frc46_root_installed_before_hook (w : FactoryWorld)
    (st : FactoryTokenState) (fromAddr toAddr initialOwner : Address)
    (amount : Int) (hookRun : FactoryWorld → FactoryWorld) :
    (∀ t2 hook,
      tokenTransfer w.msg st.granularity st.token (.id w.caller) toAddr amount = .ok (t2, hook) →
      (factoryTransfer w st toAddr amount hookRun).2.2 =
        (hookRun (postWorld w { st with token := t2 }),
         [.putBlock w.freshCid, .setRoot w.freshCid,
          .hookCall hook.toId hook.fromId hook.amount]) ∧
      (postWorld w { st with token := t2 }).root = w.freshCid ∧
      alookup (postWorld w { st with token := t2 }).bs w.freshCid =
        some { st with token := t2 }) ∧
    (∀ e, tokenTransfer w.msg st.granularity st.token (.id w.caller) toAddr amount = .error e →
      factoryTransfer w st toAddr amount hookRun = (.error (.Token e), st, w, [])) ∧
    (∀ t2 hook,
      tokenTransferFrom w.msg st.granularity st.token (.id w.caller) fromAddr toAddr amount = .ok (t2, hook) →
      (factoryTransferFrom w st fromAddr toAddr amount hookRun).2.2 =
        (hookRun (postWorld w { st with token := t2 }),
         [.putBlock w.freshCid, .setRoot w.freshCid,
          .hookCall hook.toId hook.fromId hook.amount])) ∧
    (∀ m t2 hook, st.minter = some m → w.caller = m →
      tokenMint w.msg st.granularity st.token (.id w.caller) initialOwner amount = .ok (t2, hook) →
      (factoryMint w st initialOwner amount hookRun).2.2 =
        (hookRun (postWorld w { st with token := t2 }),
         [.putBlock w.freshCid, .setRoot w.freshCid,
          .hookCall hook.toId hook.fromId hook.amount])) := by
  refine ⟨?_, ?_, ?_, ?_⟩
  · intro t2 hook ht
    refine ⟨?_, rfl, ?_⟩
    · rw [factoryTransfer_tail w st toAddr amount hookRun t2 hook ht, hookPhase_tail]
    · show alookup ((w.freshCid, { st with token := t2 }) :: w.bs) w.freshCid =
        some { st with token := t2 }
      rw [alookup_cons, if_pos rfl]
  · intro e ht
    exact factoryTransfer_error w st toAddr amount hookRun e ht
  · intro t2 hook ht
    rw [factoryTransferFrom_tail w st fromAddr toAddr amount hookRun t2 hook ht,
      hookPhase_tail]
  · intro m t2 hook hm hc ht
    rw [factoryMint_tail w st initialOwner amount hookRun m t2 hook hm hc ht,
      hookPhase_tail]

/-- C2 witness: a concrete successful transfer of 5 units emits exactly
flush, root-install, then the hook call. -/
theorem frc46_root_installed_before_hook_witness :
    (factoryTransfer fw0 fst0 (.id 2) 5 id).2.2.2 =
      [FEvent.putBlock 1, FEvent.setRoot 1, FEvent.hookCall 2 1 5] := by
  have h := (frc46_root_installed_before_hook fw0 fst0 (.id 1) (.id 2) (.id 2) 5 id).1
    { supply := 10, balances := [(1, 5), (2, 5)], allowances := [] }
    { toId := 2, fromId := 1, amount := 5 } rfl
  exact congrArg Prod.snd h.1

/-- C3: For every closure passed to `NFT::transaction`: if the closure
returns an error, transaction returns that error and the live state (indeed
the whole handle) is exactly as before the call; if it succeeds, the mutated
copy replaces the live state in one step and the closure's result is
returned.  The closure receives the state by value, i.e. a fully
independent copy, never the live state. -/
theorem nft_transaction_atomic {Res : Type} (n : NFT)
    (f : NFTState → Except NFTError (NFTState × Res)) :
    (∀ e, f n.state = .error e → n.transaction f = (.error e, n)) ∧
    (∀ st2 r, f n.state = .ok (st2, r) →
      n.transaction f = (.ok r, { n with state := st2 })) := by
  constructor
  · intro e he
    unfold NFT.transaction
    rw [he]
  · intro st2 r hok
    unfold NFT.transaction
    rw [hok]

/-- C3 witness: a failing closure leaves the sample handle untouched and
propagates its error. -/
theorem nft_transaction_atomic_witness :
    nft0.transaction failClosure = (.error (.Actor .NoState), nft0) :=
  (nft_transaction_atomic nft0 failClosure).1 (.Actor .NoState) rfl

/-- C4 counterexample: the claim quantifies over *every* batch transfer with
a duplicated, caller-owned id, but a self-transfer (recipient resolving to
the owner itself) with the duplicated id `[0, 0]` succeeds: after the first
occurrence the token's owner is again the caller, so the second ownership
check passes and the operation returns Ok instead of failing with
NotOwner. -/
theorem nft_transfer_duplicate_counterexample :
    (alookup nft0.state.tokenData 0).map TokenData.owner = some 1 ∧
    nft0.msg.resolveOrInit (.id 1) = .ok 1 ∧
    ([0, 0] : List TokenID).count 0 = 2 ∧
    isOkE (nft0.transfer (.id 1) (.id 1) [0, 0]).1 = true := by
  refine ⟨rfl, rfl, ?_, rfl⟩
  decide

/-- C4 (amended): For every batch transfer whose recipient resolves to a
different actor than the owner and whose caller owns every id in the list,
a duplicated id makes the operation fail with NotOwner attributed to the
second occurrence of the duplicated id (the first list position repeating
an earlier id), because the first occurrence already moved it; and every
balance and owner record is exactly as before the call. -/
theorem nft_transfer_duplicate_fails_second_occurrence (n : NFT)
    (owner recipient : Address) (oId rId : ActorID) (ids : List TokenID)
    (d : TokenID)
    (ho : n.msg.resolveOrInit owner = .ok oId)
    (hr : n.msg.resolveOrInit recipient = .ok rId)
    (hne : rId ≠ oId)
    (hown : ∀ t ∈ ids, ∃ td, alookup n.state.tokenData t = some td ∧ td.owner = oId)
    (hdup : firstRepeat [] ids = some d) :
    n.transfer owner recipient ids = (.error (.NFTState (.NotOwner oId d)), n) := by
  have hinv : ∀ t ∈ ids, ∃ td, alookup n.state.tokenData t = some td ∧
      td.owner = (if t ∈ ([] : List TokenID) then rId else oId) := by
    intro t ht
    obtain ⟨td, h1, h2⟩ := hown t ht
    exact ⟨td, h1, by simpa using h2⟩
  have hloop := transferLoop_dup oId rId hne ids [] n.state.tokenData
    n.state.ownerData d hinv hdup
  rw [NFT_transfer_eq n owner recipient oId rId ids ho hr, hloop]

/-- C4 witness (amended claim): transferring `[0, 1, 0]` from actor 1 to
actor 2 fails with NotOwner at the second occurrence of id 0, leaving the
handle unchanged. -/
theorem nft_transfer_duplicate_fails_second_occurrence_witness :
    nft0.transfer (.id 1) (.id 2) [0, 1, 0] =
      (.error (.NFTState (.NotOwner 1 0)), nft0) := by
  refine nft_transfer_duplicate_fails_second_occurrence nft0 (.id 1) (.id 2)
    1 2 [0, 1, 0] 0 rfl rfl (by decide) ?_ rfl
  intro t ht
  have hcases : t = 0 ∨ t = 1 ∨ t = 0 := by simpa using ht
  rcases hcases with h | h | h <;> subst h
  · exact ⟨⟨1, [], ""⟩, rfl, rfl⟩
  · exact ⟨⟨1, [], ""⟩, rfl, rfl⟩
  · exact ⟨⟨1, [], ""⟩, rfl, rfl⟩

/-- C5: For every transfer or burn over a batch of token ids: an id whose
record does not exist makes the operation fail, a TokenNotFound error
always carries an id of the batch whose record is absent, an id whose
record's owner is not the expected actor makes the operation fail, a
NotOwner error always carries the expected actor and an id of the batch;
and in every such failure all balances and owners are left unchanged (the
handle is returned exactly as it was). -/
theorem nft_batch_ownership_validation (n : NFT) (owner recipient : Address)
    (oId rId bOwner : ActorID) (ids : List TokenID)
    (ho : n.msg.resolveOrInit owner = .ok oId)
    (hr : n.msg.resolveOrInit recipient = .ok rId) :
    ((∃ t, t ∈ ids ∧ alookup n.state.tokenData t = none) →
      isOkE (n.transfer owner recipient ids).1 = false) ∧
    ((∃ t td, t ∈ ids ∧ alookup n.state.tokenData t = some td ∧ td.owner ≠ oId) →
      isOkE (n.transfer owner recipient ids).1 = false) ∧
    (∀ t, (n.transfer owner recipient ids).1 = .error (.NFTState (.TokenNotFound t)) →
      t ∈ ids ∧ alookup n.state.tokenData t = none) ∧
    (∀ a t, (n.transfer owner recipient ids).1 = .error (.NFTState (.NotOwner a t)) →
      a = oId ∧ t ∈ ids) ∧
    (∀ e, (n.transfer owner recipient ids).1 = .error e →
      (n.transfer owner recipient ids).2 = n) ∧
    ((∃ t, t ∈ ids ∧ alookup n.state.tokenData t = none) →
      isOkE (n.burn bOwner ids).1 = false) ∧
    ((∃ t td, t ∈ ids ∧ alookup n.state.tokenData t = some td ∧ td.owner ≠ bOwner) →
      isOkE (n.burn bOwner ids).1 = false) ∧
    (∀ t, (n.burn bOwner ids).1 = .error (.NFTState (.TokenNotFound t)) → t ∈ ids) ∧
    (∀ a t, (n.burn bOwner ids).1 = .error (.NFTState (.NotOwner a t)) →
      a = bOwner ∧ t ∈ ids) ∧
    (∀ e, (n.burn bOwner ids).1 = .error e → (n.burn bOwner ids).2 = n) := by
  have htr := NFT_transfer_eq n owner recipient oId rId ids ho hr
  refine ⟨?_, ?_, ?_, ?_, ?_, ?_, ?_, ?_, ?_, ?_⟩
  · rintro ⟨t, htm, htn⟩
    obtain ⟨e, he⟩ := transferLoop_missing oId rId ids n.state.tokenData
      n.state.ownerData t htm htn
    rw [htr, he]
    rfl
  · rintro ⟨t, td, htm, hts, hto⟩
    obtain ⟨e, he⟩ := transferLoop_wrongOwner oId rId ids n.state.tokenData
      n.state.ownerData t td htm hts hto
    rw [htr, he]
    rfl
  · intro t het
    rw [htr] at het
    cases hl : transferLoop oId rId ids n.state.tokenData n.state.ownerData with
    | error e =>
      rw [hl] at het
      have he2 : (Except.error (NFTError.NFTState e) : Except NFTError TransferIntermediate) =
          .error (.NFTState (.TokenNotFound t)) := het
      injection he2 with he3
      injection he3 with he4
      subst he4
      cases transferLoop_error_classify oId rId ids _ _ _ hl with
      | inl hc =>
        obtain ⟨t2, htm, hte, htn⟩ := hc
        injection hte with h5
        subst h5
        exact ⟨htm, htn⟩
      | inr hc =>
        obtain ⟨t2, htm, hte⟩ := hc
        cases hte
    | ok p =>
      rw [hl] at het
      exact Except.noConfusion het
  · intro a t het
    rw [htr] at het
    cases hl : transferLoop oId rId ids n.state.tokenData n.state.ownerData with
    | error e =>
      rw [hl] at het
      have he2 : (Except.error (NFTError.NFTState e) : Except NFTError TransferIntermediate) =
          .error (.NFTState (.NotOwner a t)) := het
      injection he2 with he3
      injection he3 with he4
      subst he4
      cases transferLoop_error_classify oId rId ids _ _ _ hl with
      | inl hc =>
        obtain ⟨t2, htm, hte, htn⟩ := hc
        cases hte
      | inr hc =>
        obtain ⟨t2, htm, hte⟩ := hc
        injection hte with h5 h6
        subst h5
        subst h6
        exact ⟨rfl, htm⟩
    | ok p =>
      rw [hl] at het
      exact Except.noConfusion het
  · intro e het
    cases hl : transferLoop oId rId ids n.state.tokenData n.state.ownerData with
    | error e2 =>
      rw [htr, hl]
    | ok p =>
      rw [htr, hl] at het
      exact Except.noConfusion het
  · rintro ⟨t, htm, htn⟩
    obtain ⟨e, he⟩ := burnLoop_missing bOwner ids n.state.tokenData
      n.state.ownerData t htm htn
    rw [NFT_burn_error n bOwner ids e he]
    rfl
  · rintro ⟨t, td, htm, hts, hto⟩
    obtain ⟨e, he⟩ := burnLoop_wrongOwner bOwner ids n.state.tokenData
      n.state.ownerData t td htm hts hto
    rw [NFT_burn_error n bOwner ids e he]
    rfl
  · intro t het
    cases hl : burnLoop bOwner ids n.state.tokenData n.state.ownerData with
    | error e =>
      rw [NFT_burn_error n bOwner ids e hl] at het
      have he2 : (Except.error (NFTError.NFTState e) : Except NFTError Nat) =
          .error (.NFTState (.TokenNotFound t)) := het
      injection he2 with he3
      injection he3 with he4
      subst he4
      cases burnLoop_error_classify bOwner ids _ _ _ hl with
      | inl hc =>
        obtain ⟨t2, htm, hte⟩ := hc
        injection hte with h5
        subst h5
        exact htm
      | inr hc =>
        obtain ⟨t2, htm, hte⟩ := hc
        cases hte
    | ok p =>
      have hok := NFT_burn_ok_isOk n bOwner ids p hl
      rw [het] at hok
      simp [isOkE] at hok
  · intro a t het
    cases hl : burnLoop bOwner ids n.state.tokenData n.state.ownerData with
    | error e =>
      rw [NFT_burn_error n bOwner ids e hl] at het
      have he2 : (Except.error (NFTError.NFTState e) : Except NFTError Nat) =
          .error (.NFTState (.NotOwner a t)) := het
      injection he2 with he3
      injection he3 with he4
      subst he4
      cases burnLoop_error_classify bOwner ids _ _ _ hl with
      | inl hc =>
        obtain ⟨t2, htm, hte⟩ := hc
        cases hte
      | inr hc =>
        obtain ⟨t2, htm, hte⟩ := hc
        injection hte with h5 h6
        subst h5
        subst h6
        exact ⟨rfl, htm⟩
    | ok p =>
      have hok := NFT_burn_ok_isOk n bOwner ids p hl
      rw [het] at hok
      simp [isOkE] at hok
  · intro e het
    cases hl : burnLoop bOwner ids n.state.tokenData n.state.ownerData with
    | error e2 =>
      rw [NFT_burn_error n bOwner ids e2 hl]
    | ok p =>
      have hok := NFT_burn_ok_isOk n bOwner ids p hl
      rw [het] at hok
      simp [isOkE] at hok

/-- C5 witness: the batch `[0, 1, 2, 3]` where id 3 was never minted makes
both transfer and burn fail on the sample ledger. -/
theorem nft_batch_ownership_validation_witness :
    isOkE (nft0.transfer (.id 1) (.id 2) [0, 1, 2, 3]).1 = false ∧
    isOkE (nft0.burn 1 [0, 1, 2, 3]).1 = false := by
  have h := nft_batch_ownership_validation nft0 (.id 1) (.id 2) 1 2 1
    [0, 1, 2, 3] rfl rfl
  exact ⟨h.1 ⟨3, by decide, rfl⟩, h.2.2.2.2.2.1 ⟨3, by decide, rfl⟩⟩

/-- C6: For every caller (authorized minter, another account, or any
identity at all), invoking mint on a factory token whose minter field is
None fails with MintingDisabled; the disabled-minting check precedes and
overrides the caller-authorization check, so the result is never
AddressNotAuthorized and nothing is mutated or emitted. -/
theorem frc46_mint_disabled_regardless_of_caller (w : FactoryWorld)
    (st : FactoryTokenState) (initialOwner : Address) (amount : Int)
    (hookRun : FactoryWorld → FactoryWorld)
    (hminter : st.minter = none) :
    factoryMint w st initialOwner amount hookRun =
      (.error .MintingDisabled, st, w, []) := by
  simp only [factoryMint, hminter]

/-- C6 witness: with minting disabled, even a caller distinct from the
one-time minter receives MintingDisabled (not AddressNotAuthorized). -/
theorem frc46_mint_disabled_regardless_of_caller_witness :
    factoryMint fw2 fstDisabled (.id 1) 5 id =
      (.error .MintingDisabled, fstDisabled, fw2, []) :=
  frc46_mint_disabled_regardless_of_caller fw2 fstDisabled (.id 1) 5 id rfl

/-- C7: For every address that the messaging capability fails to resolve
with an address-not-resolved error, balance_of returns Ok 0 rather than an
error; for an address that does resolve, it returns that account's recorded
balance. -/
theorem nft_balance_of_unresolved_returns_zero (n : NFT) (address : Address) :
    (∀ a, n.msg.resolveId address = .error (.AddressNotResolved a) →
      n.balanceOf address = .ok 0) ∧
    (∀ i, n.msg.resolveId address = .ok i →
      n.balanceOf address = .ok (getBalance n.state i)) := by
  constructor
  · intro a hres
    unfold NFT.balanceOf
    rw [hres]
  · intro i hres
    unfold NFT.balanceOf
    rw [hres]

/-- C7 witness: an unresolved keyed address yields balance 0. -/
theorem nft_balance_of_unresolved_returns_zero_witness :
    nft0.balanceOf (.key 9) = .ok 0 :=
  (nft_balance_of_unresolved_returns_zero nft0 (.key 9)).1 (.key 9) rfl

/-- C8: For every caller (that resolves to an account id) and every
operator address that does not resolve to an account id, revoke and
revoke_for_all return success and leave the entire ledger state unchanged —
the handle is returned exactly as it was, so no token record, approval set
or balance is modified. -/
theorem nft_revoke_missing_operator_noop (n : NFT) (caller opAddr : Address)
    (callerId : ActorID) (ids : List TokenID) (a : Address)
    (hc : n.msg.resolveId caller = .ok callerId)
    (hop : n.msg.resolveId opAddr = .error (.AddressNotResolved a)) :
    n.revoke caller opAddr ids = (.ok (), n) ∧
    n.revokeForAll caller opAddr = (.ok (), n) := by
  constructor
  · unfold NFT.revoke
    rw [hc, hop]
  · unfold NFT.revokeForAll
    rw [hc, hop]

/-- C8 witness: revoking an operator at an unresolvable keyed address is a
successful no-op on the sample handle. -/
theorem nft_revoke_missing_operator_noop_witness :
    nft0.revoke (.id 1) (.key 9) [0] = (.ok (), nft0) ∧
    nft0.revokeForAll (.id 1) (.key 9) = (.ok (), nft0) :=
  nft_revoke_missing_operator_noop nft0 (.id 1) (.key 9) 1 [0] (.key 9) rfl rfl

/-- C9: In revoke and revoke_for_all, any error whatsoever returned by
resolving the operator address — including syscall-level and serialization
messaging errors, not only the address-not-resolved case — is swallowed and
converted into a successful no-op return; an operator-resolution failure is
never propagated to the caller. -/
theorem nft_revoke_swallows_resolution_errors (n : NFT)
    (caller opAddr : Address) (callerId : ActorID) (ids : List TokenID)
    (e : MessagingError)
    (hc : n.msg.resolveId caller = .ok callerId)
    (hop : n.msg.resolveId opAddr = .error e) :
    n.revoke caller opAddr ids = (.ok (), n) ∧
    n.revokeForAll caller opAddr = (.ok (), n) := by
  constructor
  · unfold NFT.revoke
    rw [hc, hop]
  · unfold NFT.revokeForAll
    rw [hc, hop]

/-- C9 witness: an operator address whose resolution fails with a syscall
error (key 7 in the sample messenger) is swallowed into a successful
no-op. -/
theorem nft_revoke_swallows_resolution_errors_witness :
    nft0.revoke (.id 1) (.key 7) [0] = (.ok (), nft0) ∧
    nft0.revokeForAll (.id 1) (.key 7) = (.ok (), nft0) :=
  nft_revoke_swallows_resolution_errors nft0 (.id 1) (.key 7) 1 [0]
    (.Syscall 5) rfl rfl

/-- C10: disable_mint is not idempotent at the interface: if minting is
already disabled it fails with MintingDisabled rather than succeeding with
no effect; if the caller is not the current minter it fails with
AddressNotAuthorized and the minter field is unchanged; only a call by the
current minter succeeds, and it sets the minter field to None. -/
theorem frc46_disable_mint_behavior (w : FactoryWorld)
    (st : FactoryTokenState) :
    (st.minter = none → disableMint w st = (.error .MintingDisabled, st)) ∧
    (∀ m, st.minter = some m → w.caller ≠ m →
      disableMint w st = (.error .AddressNotAuthorized, st)) ∧
    (∀ m, st.minter = some m → w.caller = m →
      disableMint w st = (.ok (), { st with minter := none })) := by
  refine ⟨?_, ?_, ?_⟩
  · intro hm
    simp only [disableMint, hm]
  · intro m hm hcne
    simp only [disableMint, hm]
    rw [if_pos hcne]
  · intro m hm hceq
    simp only [disableMint, hm]
    rw [if_neg (show ¬ w.caller ≠ m from fun hq => hq hceq)]

/-- C10 witness: the three branches at concrete states — already disabled,
wrong caller, and the minter itself. -/
theorem frc46_disable_mint_behavior_witness :
    disableMint fw0 fstDisabled = (.error .MintingDisabled, fstDisabled) ∧
    disableMint fw2 fst0 = (.error .AddressNotAuthorized, fst0) ∧
    disableMint fw0 fst0 = (.ok (), { fst0 with minter := none }) :=
  ⟨(frc46_disable_mint_behavior fw0 fstDisabled).1 rfl,
   (frc46_disable_mint_behavior fw2 fst0).2.1 1 rfl (by decide),
   (frc46_disable_mint_behavior fw0 fst0).2.2 1 rfl rfl⟩
